import Mathlib

/-!
Verification of the ContentCraft content-generation service.

Shallow embedding of:
- the data model (`shared/schema.ts`: `Content`, `InsertContent`),
- the provider result shape (`server/lib/openai.ts`: `GeneratedContent`),
- the in-memory store (`server/storage.ts`: `MemStorage`), and
- the route handlers (`server/routes.ts`: content generation, image
  analysis, and the PUT update route).

JavaScript `Map`s are modelled as association lists in insertion order:
`Map.get` finds the first entry with the key, `Map.set` replaces the value
in place when the key exists (keeping its position) and appends otherwise,
`Map.delete` removes the entry with the key and reports whether one was
removed.  Timestamps (`createdAt`, `new Date()`) are modelled as `Nat`
milliseconds, passed to the store as an explicit `now` argument.  Uploaded
file buffers are modelled by their base64 strings.
-/

namespace ContentCraft

/-- Metadata block of a generated result (`server/lib/openai.ts`,
`GeneratedContent.metadata`): optional estimated duration, word count,
character count, tone and target audience. -/
structure ContentMetadata where
  estimatedDuration : Option String
  wordCount : Nat
  characterCount : Nat
  tone : String
  targetAudience : String
deriving DecidableEq

/-- Normalized provider result (`server/lib/openai.ts`, `GeneratedContent`). -/
structure GeneratedContent where
  title : String
  content : String
  hashtags : List String
  metadata : ContentMetadata
deriving DecidableEq

/-- Structured request handed to the provider adapter
(`server/lib/openai.ts`, `ContentGenerationRequest`). -/
structure ContentGenerationRequest where
  platform : String
  contentType : String
  brief : String
  images : List String
  template : Option String
deriving DecidableEq

/-- Persisted content record (`shared/schema.ts`, table `content`):
`id` serial key, `userId` owner, nullable `description`, `images` defaulting
to `[]`, json `metadata` (always the adapter metadata in this system) and a
`createdAt` timestamp. -/
structure Content where
  id : Nat
  userId : Nat
  title : String
  description : Option String
  platform : String
  contentType : String
  brief : String
  generatedContent : String
  images : List String
  metadata : ContentMetadata
  createdAt : Nat
deriving DecidableEq

/-- Insert payload (`shared/schema.ts`, `insertContentSchema` =
`createInsertSchema(content).omit(\x7bid, createdAt\x7d)`): every `Content`
field except `id` and `createdAt`, which the store assigns. -/
structure InsertContent where
  userId : Nat
  title : String
  description : Option String
  platform : String
  contentType : String
  brief : String
  generatedContent : String
  images : List String
  metadata : ContentMetadata
deriving DecidableEq

/-- Runtime update payload of `updateContent`.  The TypeScript signature
says `Partial<InsertContent>`, but the PUT route passes `req.body` through
unvalidated, so at runtime the object spread `\x7b...existing, ...updates\x7d`
honours any `Content` field present in the JSON body — including `id` and
`createdAt`.  Each field is `some v` when the body carries the key. -/
structure UpdatePayload where
  id : Option Nat
  userId : Option Nat
  title : Option String
  description : Option String
  platform : Option String
  contentType : Option String
  brief : Option String
  generatedContent : Option String
  images : Option (List String)
  metadata : Option ContentMetadata
  createdAt : Option Nat
deriving DecidableEq

/-- The all-absent update payload. -/
def UpdatePayload.empty : UpdatePayload :=
  ⟨none, none, none, none, none, none, none, none, none, none, none⟩

/-- JS `Map.get`: first entry with the key, if any. -/
def mapGet : List (Nat × Content) → Nat → Option Content
  | [], _ => none
  | (k', v') :: t, k => if k' = k then some v' else mapGet t k

/-- JS `Map.set`: replace in place when the key exists (keeping its
position in iteration order), append otherwise. -/
def mapSet : List (Nat × Content) → Nat → Content → List (Nat × Content)
  | [], k, v => [(k, v)]
  | (k', v') :: t, k, v => if k' = k then (k, v) :: t else (k', v') :: mapSet t k v

/-- JS `Map.delete`, the removal part: drop the entry with the key. -/
def mapErase : List (Nat × Content) → Nat → List (Nat × Content)
  | [], _ => []
  | (k', v') :: t, k => if k' = k then t else (k', v') :: mapErase t k

/-- The content half of `MemStorage` (`server/storage.ts`): the
`content` map in insertion order and the `currentContentId` counter
(initially 1).  The `users` and `contentTemplates` maps and their counters
are independent state not touched by any property below. -/
structure MemStorage where
  content : List (Nat × Content)
  currentContentId : Nat
deriving DecidableEq

/-- The store at process start: empty content map, counter 1. -/
def MemStorage.init : MemStorage := ⟨[], 1⟩

/-- `MemStorage.getContent`: `this.content.get(id)`. -/
def getContent (s : MemStorage) (id : Nat) : Option Content :=
  mapGet s.content id

/-- Comparator of `getContentByUserId`:
`(a, b) => new Date(b.createdAt).getTime() - new Date(a.createdAt).getTime()`,
i.e. `a` comes no later than `b` iff `b.createdAt ≤ a.createdAt`. -/
def createdAtGe (a b : Content) : Prop := b.createdAt ≤ a.createdAt

instance : DecidableRel createdAtGe := fun _ _ => Nat.decLe _ _

instance : IsTotal Content createdAtGe := ⟨fun a b => Nat.le_total b.createdAt a.createdAt⟩

instance : IsTrans Content createdAtGe := ⟨fun _ _ _ h1 h2 => Nat.le_trans h2 h1⟩

/-- `MemStorage.getContentByUserId`:
`Array.from(this.content.values()).filter(c => c.userId === userId).sort(cmp)`.
`Array.prototype.sort` is a stable sort by the comparator (ECMAScript 2019),
embedded as a stable insertion sort under `createdAtGe`. -/
def getContentByUserId (s : MemStorage) (userId : Nat) : List Content :=
  List.insertionSort createdAtGe
    ((s.content.map Prod.snd).filter (fun c => c.userId == userId))

/-- `MemStorage.createContent`: take `id = this.currentContentId++`, build
the record with `id` and `createdAt: new Date()`, insert, return it. -/
def createContent (s : MemStorage) (ins : InsertContent) (now : Nat) :
    Content × MemStorage :=
  let id := s.currentContentId
  let newContent : Content :=
    { id := id, userId := ins.userId, title := ins.title,
      description := ins.description, platform := ins.platform,
      contentType := ins.contentType, brief := ins.brief,
      generatedContent := ins.generatedContent, images := ins.images,
      metadata := ins.metadata, createdAt := now }
  (newContent, ⟨mapSet s.content id newContent, id + 1⟩)

/-- The object spread `\x7b...existing, ...updates\x7d`: every field present in
the update payload overrides the existing record's field. -/
def mergeContent (c : Content) (u : UpdatePayload) : Content :=
  { id := u.id.getD c.id, userId := u.userId.getD c.userId,
    title := u.title.getD c.title,
    description := (u.description.map some).getD c.description,
    platform := u.platform.getD c.platform,
    contentType := u.contentType.getD c.contentType,
    brief := u.brief.getD c.brief,
    generatedContent := u.generatedContent.getD c.generatedContent,
    images := u.images.getD c.images, metadata := u.metadata.getD c.metadata,
    createdAt := u.createdAt.getD c.createdAt }

/-- `MemStorage.updateContent`: `undefined` on a missing id, otherwise
store and return the spread-merged record under the same key. -/
def updateContent (s : MemStorage) (id : Nat) (u : UpdatePayload) :
    Option Content × MemStorage :=
  match mapGet s.content id with
  | none => (none, s)
  | some existing =>
    let updated := mergeContent existing u
    (some updated, ⟨mapSet s.content id updated, s.currentContentId⟩)

/-- `MemStorage.deleteContent`: `this.content.delete(id)`, returning
whether an entry was removed. -/
def deleteContent (s : MemStorage) (id : Nat) : Bool × MemStorage :=
  ((mapGet s.content id).isSome, ⟨mapErase s.content id, s.currentContentId⟩)

/-- A value stored in an own property of the `platformCounts` object
literal: a number, or — after `+ 1` hit a non-numeric inherited value — a
string. -/
inductive JsVal where
  | num : Nat → JsVal
  | str : String → JsVal
deriving DecidableEq

/-- JS truthiness of a stored value: `0` and `""` are falsy. -/
def JsVal.truthy : JsVal → Bool
  | .num n => n != 0
  | .str s => !s.isEmpty

/-- The count a `byPlatform` value contributes; a (buggy) string value
contributes nothing. -/
def JsVal.toCount : JsVal → Nat
  | .num n => n
  | .str _ => 0

/-- JS `+ 1` on a stored value: numeric addition on a number, string
concatenation on a string. -/
def jsAdd1 : JsVal → JsVal
  | .num n => .num (n + 1)
  | .str s => .str (s ++ "1")

/-- The function-valued own data properties of `Object.prototype`, which a
plain object literal inherits; reading one of these keys on
`platformCounts` yields a (truthy) function, and assigning to one shadows
it with an own property. -/
def protoFunKeys : List String :=
  ["constructor", "hasOwnProperty", "isPrototypeOf", "propertyIsEnumerable",
   "toLocaleString", "toString", "valueOf",
   "__defineGetter__", "__defineSetter__", "__lookupGetter__", "__lookupSetter__"]

/-- All own property keys of `Object.prototype`: the `__proto__` accessor
plus the function-valued data properties. -/
def objectProtoKeys : List String := "__proto__" :: protoFunKeys

/-- Implementation-defined text `String(Object.prototype[k])` of an
inherited function; its exact content never matters below. -/
def inheritedFunText (k : String) : String :=
  "function " ++ k ++ "() \x7b [native code] \x7d"

/-- Own properties of a plain JS object, as an assoc list in insertion
order: read the first (only) entry with the key. -/
def objGetOwn : List (String × JsVal) → String → Option JsVal
  | [], _ => none
  | (k', v') :: t, k => if k' = k then some v' else objGetOwn t k

/-- JS assignment creating/overwriting an own property: replace in place
when the key exists, append otherwise. -/
def objSetOwn : List (String × JsVal) → String → JsVal → List (String × JsVal)
  | [], k, v => [(k, v)]
  | (k', v') :: t, k, v =>
    if k' = k then (k', v) :: t else (k', v') :: objSetOwn t k v

/-- One step of the stats fold (`server/storage.ts`, `getContentStats`):
the read-modify-write
`platformCounts[c.platform] = (platformCounts[c.platform] || 0) + 1` on the
plain object literal `\x7b\x7d`, with full prototype-chain semantics.  With an
own property the read yields it, `|| 0` keeps it when truthy, and `+ 1`
bumps a number or concatenates onto a string.  Without one, the read falls
through to `Object.prototype`: for `__proto__` it yields the (truthy)
prototype object, `+ 1` coerces to a string, and the assignment invokes the
inherited `__proto__` setter, which ignores a string value — no own
property is ever created; for an inherited function-valued key the read
yields the (truthy) function, so a concatenated string is stored; for any
other key the read is `undefined`, `|| 0` gives 0, and 1 is stored. -/
def bump (counts : List (String × JsVal)) (k : String) : List (String × JsVal) :=
  match objGetOwn counts k with
  | some v => objSetOwn counts k (jsAdd1 (if v.truthy then v else .num 0))
  | none =>
    if k = "__proto__" then counts
    else if k ∈ protoFunKeys then
      objSetOwn counts k (.str (inheritedFunText k ++ "1"))
    else objSetOwn counts k (.num 1)

/-- Result shape of `getContentStats`. -/
structure ContentStats where
  totalContent : Nat
  aiGenerated : Nat
  platforms : Nat
  byPlatform : List (String × JsVal)
deriving DecidableEq

/-- `MemStorage.getContentStats`: fold the owner's records into the
per-platform counting object; `platforms` is
`Object.keys(platformCounts).length`, the number of own keys. -/
def getContentStats (s : MemStorage) (userId : Nat) : ContentStats :=
  let userContent := getContentByUserId s userId
  let platformCounts := userContent.foldl (fun acc c => bump acc c.platform) []
  { totalContent := userContent.length, aiGenerated := userContent.length,
    platforms := platformCounts.length, byPlatform := platformCounts }

/-- Sum of the numeric per-platform counts of a `byPlatform` object. -/
def sumVals (l : List (String × JsVal)) : Nat :=
  (l.map (fun p => p.2.toCount)).sum

/-- Multipart body of `POST /api/content/generate`: the four text fields
(absent keys are `none`) and the base64 strings of the uploaded files. -/
structure GenerateRequestBody where
  platform : Option String
  contentType : Option String
  brief : Option String
  template : Option String
  files : List String
deriving DecidableEq

/-- Success body of `POST /api/content/generate`:
`\x7bid: savedContent.id, ...generatedContent\x7d`. -/
structure GenerateResponse where
  id : Nat
  title : String
  content : String
  hashtags : List String
  metadata : ContentMetadata
deriving DecidableEq

/-- Observable outcome of one call to the generation route: HTTP status,
error body, success body, the store afterwards, and how many times the
provider adapter was invoked during the call. -/
structure GenerateOutcome where
  status : Nat
  error : Option String
  response : Option GenerateResponse
  store : MemStorage
  adapterCalls : Nat
deriving DecidableEq

/-- JS truthiness of a required text field: `!platform` rejects both an
absent field and the empty string. -/
def requiredPresent (o : Option String) : Bool :=
  match o with
  | none => false
  | some s => !s.isEmpty

/-- The `POST /api/content/generate` handler (`server/routes.ts`): reject
400 unless `platform`, `contentType` and `brief` are present and non-empty;
otherwise call the adapter once; on adapter failure answer 500 and leave
the store untouched; on success persist
`\x7buserId: 1, title, description: brief, platform, contentType, brief,
generatedContent, images: [], metadata\x7d` and answer with the new id merged
with the generated fields. -/
def generateContentRoute
    (adapter : ContentGenerationRequest → Except String GeneratedContent)
    (req : GenerateRequestBody) (s : MemStorage) (now : Nat) :
    GenerateOutcome :=
  if requiredPresent req.platform && requiredPresent req.contentType &&
      requiredPresent req.brief then
    let p := req.platform.getD ""
    let ct := req.contentType.getD ""
    let b := req.brief.getD ""
    match adapter ⟨p, ct, b, req.files, req.template⟩ with
    | .error e =>
      { status := 500, error := some ("Failed to generate content: " ++ e),
        response := none, store := s, adapterCalls := 1 }
    | .ok g =>
      let saved := createContent s
        { userId := 1, title := g.title, description := some b,
          platform := p, contentType := ct, brief := b,
          generatedContent := g.content, images := [],
          metadata := g.metadata } now
      { status := 200, error := none,
        response := some ⟨saved.1.id, g.title, g.content, g.hashtags, g.metadata⟩,
        store := saved.2, adapterCalls := 1 }
  else
    { status := 400,
      error := some "Missing required fields: platform, contentType, brief",
      response := none, store := s, adapterCalls := 0 }

/-- Observable outcome of one call to the image-analysis route. -/
structure AnalyzeOutcome where
  status : Nat
  error : Option String
  analysis : Option String
  providerCalls : Nat
deriving DecidableEq

/-- The `POST /api/images/analyze` handler (`server/routes.ts`): 400 when
no file part arrived, otherwise one provider call, answered 200 or 500. -/
def analyzeImageRoute (analyzeFn : String → Except String String)
    (file : Option String) : AnalyzeOutcome :=
  match file with
  | none =>
    { status := 400, error := some "No image file provided",
      analysis := none, providerCalls := 0 }
  | some f =>
    match analyzeFn f with
    | .ok a =>
      { status := 200, error := none, analysis := some a, providerCalls := 1 }
    | .error e =>
      { status := 500, error := some ("Failed to analyze image: " ++ e),
        analysis := none, providerCalls := 1 }

/-- The `PUT /api/content/:id` handler (`server/routes.ts`): pass the raw
JSON body to `updateContent`; 404 when it reports a miss, else 200 with the
updated record. -/
def updateContentRoute (s : MemStorage) (id : Nat) (body : UpdatePayload) :
    Nat × Option Content × MemStorage :=
  let r := updateContent s id body
  match r.1 with
  | none => (404, none, r.2)
  | some c => (200, some c, r.2)

/-- Raw, untrusted provider payload before normalization: the provider may
omit any metadata field and may return arbitrary values for the count
fields. -/
structure RawProviderResponse where
  title : String
  content : String
  hashtags : List String
  tone : Option String
  targetAudience : Option String
  estimatedDuration : Option String
  wordCount : Option Nat
  characterCount : Option Nat
deriving DecidableEq

/-- Counts the maximal non-whitespace runs of a character list; the `inWord`
flag records whether the previous character was part of a token. -/
def countWordsAux : List Char → Bool → Nat
  | [], _ => 0
  | c :: cs, inWord =>
    if c.isWhitespace then countWordsAux cs false
    else (if inWord then 0 else 1) + countWordsAux cs true

/-- Modelled from the spec: the whitespace-delimited token count
("splitting on whitespace") of the final content string — the number of
maximal non-whitespace runs, i.e. the nonempty fragments left by splitting
on whitespace. -/
def countWords (s : String) : Nat := countWordsAux s.data false

/-- Modelled from the spec: the provider-adapter output normalization of
`generateContent` (`server/lib/openai.ts` — only its type declarations are
under version control here).  Spec §4.1: tone defaults to "Professional",
targetAudience to "General", estimatedDuration stays absent when missing,
and `wordCount`/`characterCount` are computed locally from the final
content string, never taken from the provider. -/
def normalizeProviderResponse (r : RawProviderResponse) : GeneratedContent :=
  { title := r.title, content := r.content, hashtags := r.hashtags,
    metadata :=
      { estimatedDuration := r.estimatedDuration,
        wordCount := countWords r.content,
        characterCount := r.content.length,
        tone := r.tone.getD "Professional",
        targetAudience := r.targetAudience.getD "General" } }

/-! ### Association-list lemmas for the JS `Map` model -/

theorem mapGet_mapSet_self (l : List (Nat × Content)) (k : Nat) (v : Content) :
    mapGet (mapSet l k v) k = some v := by
  induction l with
  | nil => simp [mapSet, mapGet]
  | cons hd t ih =>
    obtain ⟨k', v'⟩ := hd
    by_cases h : k' = k
    · subst h
      simp [mapSet, mapGet]
    · simp [mapSet, mapGet, h, ih]

theorem mapGet_eq_none (l : List (Nat × Content)) (k : Nat)
    (h : k ∉ l.map Prod.fst) : mapGet l k = none := by
  induction l with
  | nil => rfl
  | cons hd t ih =>
    obtain ⟨k', v'⟩ := hd
    simp only [List.map_cons, List.mem_cons] at h
    push_neg at h
    simp [mapGet, Ne.symm h.1, ih h.2]

theorem mapGet_mapErase_self (l : List (Nat × Content)) (k : Nat)
    (h : (l.map Prod.fst).Nodup) : mapGet (mapErase l k) k = none := by
  induction l with
  | nil => rfl
  | cons hd t ih =>
    obtain ⟨k', v'⟩ := hd
    simp only [List.map_cons, List.nodup_cons] at h
    by_cases hk : k' = k
    · subst hk
      simpa [mapErase] using mapGet_eq_none t k' h.1
    · simp [mapErase, hk, mapGet, ih h.2]

theorem mapSet_keys_of_isSome (l : List (Nat × Content)) (k : Nat) (v : Content)
    (h : (mapGet l k).isSome) : (mapSet l k v).map Prod.fst = l.map Prod.fst := by
  induction l with
  | nil => simp [mapGet] at h
  | cons hd t ih =>
    obtain ⟨k', v'⟩ := hd
    by_cases hk : k' = k
    · subst hk
      simp [mapSet]
    · simp only [mapGet, if_neg hk] at h
      simp [mapSet, hk, ih h]

/-! ### Demo data reused by the concrete witnesses -/

def demoMetadata : ContentMetadata :=
  { estimatedDuration := none, wordCount := 2, characterCount := 11,
    tone := "Professional", targetAudience := "General" }

def demoInsert : InsertContent :=
  { userId := 1, title := "Launch Plan", description := none,
    platform := "youtube", contentType := "script",
    brief := "a product launch", generatedContent := "hello world",
    images := [], metadata := demoMetadata }

/-- A store holding exactly one record, created from `demoInsert` at t=100
(so with `id = 1`). -/
def demoStore1 : MemStorage := (createContent MemStorage.init demoInsert 100).2

def demoUpdate : UpdatePayload :=
  { UpdatePayload.empty with title := some "New Title" }

/-! ### Claims about the store -/

/-- C6: for every store state and insert payload, `create` followed by
`get` on the returned id yields the record `create` returned; and for every
id, `delete(id)` followed by `get(id)` yields the not-found signal (on any
store whose map is well-formed, i.e. has no duplicate keys — true of every
`Map`). -/
theorem create_get_delete_get (s : MemStorage) (ins : InsertContent)
    (now : Nat) (id : Nat) (h : (s.content.map Prod.fst).Nodup) :
    getContent (createContent s ins now).2 (createContent s ins now).1.id
      = some (createContent s ins now).1
  ∧ getContent (deleteContent s id).2 id = none := by
  constructor
  · simp [getContent, createContent, mapGet_mapSet_self]
  · simp [getContent, deleteContent, mapGet_mapErase_self _ _ h]

theorem create_get_delete_get_witness :
    getContent (createContent MemStorage.init demoInsert 100).2
        (createContent MemStorage.init demoInsert 100).1.id
      = some (createContent MemStorage.init demoInsert 100).1
  ∧ getContent (deleteContent MemStorage.init 5).2 5 = none :=
  create_get_delete_get MemStorage.init demoInsert 100 5 (by simp [MemStorage.init])

/-- C7: `update` on an id missing from the store returns the not-found
signal and leaves the store exactly as it was (no record created, same
contents and size); `update` on a present id returns the spread-merge of
the provided fields into the existing record, stores it under the same id,
and leaves the key sequence (hence the size) unchanged. -/
theorem update_miss_and_merge (s : MemStorage) (id : Nat) (u : UpdatePayload) :
    (getContent s id = none → updateContent s id u = (none, s))
  ∧ ∀ c, getContent s id = some c →
      (updateContent s id u).1 = some (mergeContent c u)
      ∧ getContent (updateContent s id u).2 id = some (mergeContent c u)
      ∧ (updateContent s id u).2.content.map Prod.fst = s.content.map Prod.fst := by
  constructor
  · intro h
    have h' : mapGet s.content id = none := h
    unfold updateContent
    rw [h']
  · intro c hc
    have hc' : mapGet s.content id = some c := hc
    refine ⟨?_, ?_, ?_⟩
    · simp [updateContent, hc']
    · simp [updateContent, getContent, hc', mapGet_mapSet_self]
    · simp only [updateContent, hc']
      exact mapSet_keys_of_isSome _ _ _ (by simp [hc'])

theorem update_miss_and_merge_witness :
    updateContent MemStorage.init 3 demoUpdate = (none, MemStorage.init)
  ∧ (updateContent demoStore1 1 demoUpdate).1
      = some (mergeContent (createContent MemStorage.init demoInsert 100).1 demoUpdate) :=
  ⟨(update_miss_and_merge MemStorage.init 3 demoUpdate).1 rfl,
   ((update_miss_and_merge demoStore1 1 demoUpdate).2
      (createContent MemStorage.init demoInsert 100).1 rfl).1⟩

/-- An update body as the PUT route would forward it from raw JSON
`\x7b"id": 999\x7d`: the TypeScript `Partial<InsertContent>` annotation is
erased at runtime and nothing strips the key. -/
def idMutationPayload : UpdatePayload :=
  { UpdatePayload.empty with id := some 999 }

/-- C9 (divergence): the record created first gets `id = 1`, but a PUT on
id 1 whose raw body carries `id: 999` returns and stores a record whose
`id` field is 999; likewise a body carrying `createdAt: 0` rewrites
`createdAt`.  This contradicts the documented invariant that `id` and
`createdAt` never change after creation. -/
theorem update_route_mutates_id :
    (createContent MemStorage.init demoInsert 100).1.id = 1
  ∧ ((updateContentRoute demoStore1 1 idMutationPayload).2.1.map
      (fun c => c.id)) = some 999
  ∧ ((getContent (updateContentRoute demoStore1 1 idMutationPayload).2.2 1).map
      (fun c => c.id)) = some 999
  ∧ ((updateContent demoStore1 1
        { UpdatePayload.empty with createdAt := some 0 }).1.map
      (fun c => c.createdAt)) = some 0 :=
  ⟨rfl, rfl, rfl, rfl⟩

/-! ### Demo adapters and requests for the route witnesses -/

def demoReq : GenerateRequestBody :=
  { platform := some "youtube", contentType := some "script",
    brief := some "a product launch", template := none, files := [] }

def demoReqNoBrief : GenerateRequestBody := { demoReq with brief := none }

def failingAdapter : ContentGenerationRequest → Except String GeneratedContent :=
  fun _ => .error "upstream timeout"

def demoGenerated : GeneratedContent :=
  { title := "T", content := "hello world", hashtags := ["#launch"],
    metadata := demoMetadata }

def okAdapter : ContentGenerationRequest → Except String GeneratedContent :=
  fun _ => .ok demoGenerated

/-- A provider payload whose count fields are nonsense, to show they are
ignored. -/
def demoRaw : RawProviderResponse :=
  { title := "T", content := "hello  world", hashtags := [], tone := none,
    targetAudience := none, estimatedDuration := none, wordCount := some 999,
    characterCount := some 0 }

def demoRawProvider : ContentGenerationRequest → Except String RawProviderResponse :=
  fun _ => .ok demoRaw

def demoAnalyzer : String → Except String String := fun _ => .ok "a red square"

/-! ### Claims about the generation and analysis routes -/

/-- C1: when the request passes validation but the provider adapter call
fails, the generation route surfaces 500 and the store — content map and
record count alike — is exactly what it was before the request: no partial
persistence. -/
theorem generate_provider_failure_no_persistence
    (adapter : ContentGenerationRequest → Except String GeneratedContent)
    (req : GenerateRequestBody) (s : MemStorage) (now : Nat)
    (p ct b e : String)
    (hp : req.platform = some p) (hp' : p ≠ "")
    (hct : req.contentType = some ct) (hct' : ct ≠ "")
    (hb : req.brief = some b) (hb' : b ≠ "")
    (hfail : adapter ⟨p, ct, b, req.files, req.template⟩ = .error e) :
    (generateContentRoute adapter req s now).status = 500
  ∧ (generateContentRoute adapter req s now).store = s := by
  have hpe : p.isEmpty = false := by
    rw [Bool.eq_false_iff]
    intro hcontra
    exact hp' ((String.isEmpty_iff p).mp hcontra)
  have hcte : ct.isEmpty = false := by
    rw [Bool.eq_false_iff]
    intro hcontra
    exact hct' ((String.isEmpty_iff ct).mp hcontra)
  have hbe : b.isEmpty = false := by
    rw [Bool.eq_false_iff]
    intro hcontra
    exact hb' ((String.isEmpty_iff b).mp hcontra)
  unfold generateContentRoute
  rw [hp, hct, hb]
  simp [requiredPresent, hpe, hcte, hbe, hfail]

theorem generate_provider_failure_no_persistence_witness :
    (generateContentRoute failingAdapter demoReq MemStorage.init 100).status = 500
  ∧ (generateContentRoute failingAdapter demoReq MemStorage.init 100).store
      = MemStorage.init :=
  generate_provider_failure_no_persistence failingAdapter demoReq
    MemStorage.init 100 "youtube" "script" "a product launch" "upstream timeout"
    rfl (by decide) rfl (by decide) rfl (by decide) rfl

/-- C2: whenever `platform`, `contentType` or `brief` is absent or the
empty string, the generation route answers 400, performs zero adapter
invocations, and leaves the store untouched. -/
theorem generate_validation_rejects_before_adapter
    (adapter : ContentGenerationRequest → Except String GeneratedContent)
    (req : GenerateRequestBody) (s : MemStorage) (now : Nat)
    (h : req.platform = none ∨ req.platform = some "" ∨ req.contentType = none
       ∨ req.contentType = some "" ∨ req.brief = none ∨ req.brief = some "") :
    (generateContentRoute adapter req s now).status = 400
  ∧ (generateContentRoute adapter req s now).adapterCalls = 0
  ∧ (generateContentRoute adapter req s now).store = s := by
  have hcond : (requiredPresent req.platform && requiredPresent req.contentType &&
      requiredPresent req.brief) = false := by
    rcases h with h | h | h | h | h | h <;>
      simp [h, requiredPresent, show "".isEmpty = true from rfl]
  unfold generateContentRoute
  rw [hcond]
  simp

theorem generate_validation_rejects_before_adapter_witness :
    (generateContentRoute okAdapter demoReqNoBrief MemStorage.init 100).status = 400
  ∧ (generateContentRoute okAdapter demoReqNoBrief MemStorage.init 100).adapterCalls = 0
  ∧ (generateContentRoute okAdapter demoReqNoBrief MemStorage.init 100).store
      = MemStorage.init :=
  generate_validation_rejects_before_adapter okAdapter demoReqNoBrief
    MemStorage.init 100 (Or.inr (Or.inr (Or.inr (Or.inr (Or.inl rfl)))))

/-- C8: on adapter success the persisted record carries `userId = 1` (the
implicit principal), `description` equal to the submitted brief, empty
`images`, the adapter metadata verbatim, and `id`/`createdAt` assigned at
persistence (the pre-request counter value and the persistence clock); the
route answers the persisted id merged with the adapter's title, content,
hashtags and metadata. -/
theorem generate_persists_and_returns
    (adapter : ContentGenerationRequest → Except String GeneratedContent)
    (req : GenerateRequestBody) (s : MemStorage) (now : Nat)
    (p ct b : String) (g : GeneratedContent)
    (hp : req.platform = some p) (hp' : p ≠ "")
    (hct : req.contentType = some ct) (hct' : ct ≠ "")
    (hb : req.brief = some b) (hb' : b ≠ "")
    (hok : adapter ⟨p, ct, b, req.files, req.template⟩ = .ok g) :
    (generateContentRoute adapter req s now).status = 200
  ∧ (generateContentRoute adapter req s now).response
      = some ⟨s.currentContentId, g.title, g.content, g.hashtags, g.metadata⟩
  ∧ getContent (generateContentRoute adapter req s now).store s.currentContentId
      = some { id := s.currentContentId, userId := 1, title := g.title,
               description := some b, platform := p, contentType := ct,
               brief := b, generatedContent := g.content, images := [],
               metadata := g.metadata, createdAt := now } := by
  have hpe : p.isEmpty = false := by
    rw [Bool.eq_false_iff]
    intro hcontra
    exact hp' ((String.isEmpty_iff p).mp hcontra)
  have hcte : ct.isEmpty = false := by
    rw [Bool.eq_false_iff]
    intro hcontra
    exact hct' ((String.isEmpty_iff ct).mp hcontra)
  have hbe : b.isEmpty = false := by
    rw [Bool.eq_false_iff]
    intro hcontra
    exact hb' ((String.isEmpty_iff b).mp hcontra)
  unfold generateContentRoute
  rw [hp, hct, hb]
  simp [requiredPresent, hpe, hcte, hbe, hok, createContent, getContent,
    mapGet_mapSet_self]

theorem generate_persists_and_returns_witness :
    (generateContentRoute okAdapter demoReq MemStorage.init 100).status = 200
  ∧ (generateContentRoute okAdapter demoReq MemStorage.init 100).response
      = some ⟨1, "T", "hello world", ["#launch"], demoMetadata⟩
  ∧ getContent (generateContentRoute okAdapter demoReq MemStorage.init 100).store 1
      = some { id := 1, userId := 1, title := "T",
               description := some "a product launch", platform := "youtube",
               contentType := "script", brief := "a product launch",
               generatedContent := "hello world", images := [],
               metadata := demoMetadata, createdAt := 100 } :=
  generate_persists_and_returns okAdapter demoReq MemStorage.init 100
    "youtube" "script" "a product launch" demoGenerated
    rfl (by decide) rfl (by decide) rfl (by decide) rfl

/-- C3: with the adapter modelled as provider call plus spec-mandated
normalization, every successful generation response carries
`metadata.wordCount` equal to the whitespace-delimited token count of its
`content` and `metadata.characterCount` equal to its length, whatever count
fields the raw provider payload contained. -/
theorem metadata_counts_locally_computed
    (rawProvider : ContentGenerationRequest → Except String RawProviderResponse)
    (req : GenerateRequestBody) (s : MemStorage) (now : Nat)
    (resp : GenerateResponse)
    (h : (generateContentRoute
            (fun r => (rawProvider r).map normalizeProviderResponse)
            req s now).response = some resp) :
    resp.metadata.wordCount = countWords resp.content
  ∧ resp.metadata.characterCount = resp.content.length := by
  unfold generateContentRoute at h
  by_cases hcond : (requiredPresent req.platform && requiredPresent req.contentType &&
      requiredPresent req.brief) = true
  · rw [if_pos hcond] at h
    simp only at h
    cases hr : rawProvider ⟨req.platform.getD "", req.contentType.getD "",
        req.brief.getD "", req.files, req.template⟩ with
    | error e =>
      rw [hr] at h
      simp [Except.map] at h
    | ok raw =>
      rw [hr] at h
      simp only [Except.map, Option.some.injEq] at h
      subst h
      simp [normalizeProviderResponse]
  · rw [if_neg hcond] at h
    simp at h

theorem metadata_counts_locally_computed_witness :
    (GenerateResponse.mk 1 "T" "hello  world" []
        ⟨none, 2, 12, "Professional", "General"⟩).metadata.wordCount
      = countWords (GenerateResponse.mk 1 "T" "hello  world" []
        ⟨none, 2, 12, "Professional", "General"⟩).content
  ∧ (GenerateResponse.mk 1 "T" "hello  world" []
        ⟨none, 2, 12, "Professional", "General"⟩).metadata.characterCount
      = (GenerateResponse.mk 1 "T" "hello  world" []
        ⟨none, 2, 12, "Professional", "General"⟩).content.length :=
  metadata_counts_locally_computed demoRawProvider demoReq MemStorage.init 100
    (GenerateResponse.mk 1 "T" "hello  world" []
      ⟨none, 2, 12, "Professional", "General"⟩) (by decide)

/-- C10: a POST to /api/images/analyze without an image part answers 400
with error "No image file provided" and never invokes the image-analysis
capability; the 500 provider-failure path is reachable only when an image
part is present. -/
theorem analyze_requires_image_file (analyzeFn : String → Except String String)
    (file : Option String) :
    (file = none →
      (analyzeImageRoute analyzeFn file).status = 400
      ∧ (analyzeImageRoute analyzeFn file).error = some "No image file provided"
      ∧ (analyzeImageRoute analyzeFn file).providerCalls = 0)
  ∧ ((analyzeImageRoute analyzeFn file).status = 500 → file.isSome) := by
  cases file with
  | none =>
    refine ⟨fun _ => ⟨rfl, rfl, rfl⟩, fun h => ?_⟩
    simp [analyzeImageRoute] at h
  | some f =>
    refine ⟨fun h => by simp at h, fun _ => rfl⟩

theorem analyze_requires_image_file_witness :
    (analyzeImageRoute demoAnalyzer none).status = 400
  ∧ (analyzeImageRoute demoAnalyzer none).error = some "No image file provided"
  ∧ (analyzeImageRoute demoAnalyzer none).providerCalls = 0 :=
  (analyze_requires_image_file demoAnalyzer none).1 rfl

/-! ### Stability of the descending sort -/

theorem filter_orderedInsert_createdAt (t : Nat) (a : Content) (l : List Content) :
    (List.orderedInsert createdAtGe a l).filter (fun c => c.createdAt == t)
      = if a.createdAt = t
          then a :: l.filter (fun c => c.createdAt == t)
          else l.filter (fun c => c.createdAt == t) := by
  induction l with
  | nil =>
    by_cases hat : a.createdAt = t <;>
      simp [List.orderedInsert, List.filter_cons, hat]
  | cons b bs ih =>
    rw [List.orderedInsert]
    by_cases hab : createdAtGe a b
    · rw [if_pos hab]
      by_cases hat : a.createdAt = t <;> simp [List.filter_cons, hat]
    · rw [if_neg hab]
      by_cases hat : a.createdAt = t
      · have hbt : ¬ b.createdAt = t := by
          unfold createdAtGe at hab
          omega
        simp [List.filter_cons, hat, hbt, ih]
      · by_cases hbt : b.createdAt = t <;>
          simp [List.filter_cons, hat, hbt, ih]

theorem filter_insertionSort_createdAt (t : Nat) (l : List Content) :
    (List.insertionSort createdAtGe l).filter (fun c => c.createdAt == t)
      = l.filter (fun c => c.createdAt == t) := by
  induction l with
  | nil => rfl
  | cons a l ih =>
    rw [List.insertionSort, filter_orderedInsert_createdAt, ih]
    by_cases hat : a.createdAt = t <;> simp [List.filter_cons, hat]

/-- C5: `getContentByUserId` returns exactly the owner's records — a
permutation of the owner filter of the store in insertion order — sorted by
`createdAt` descending; and it is stable: for every timestamp the records
carrying that `createdAt` appear in their store insertion order. -/
theorem list_by_owner_sorted_desc_stable (s : MemStorage) (userId : Nat) :
    List.Sorted createdAtGe (getContentByUserId s userId)
  ∧ List.Perm (getContentByUserId s userId)
      ((s.content.map Prod.snd).filter (fun c => c.userId == userId))
  ∧ ∀ t, (getContentByUserId s userId).filter (fun c => c.createdAt == t)
      = ((s.content.map Prod.snd).filter (fun c => c.userId == userId)).filter
          (fun c => c.createdAt == t) :=
  ⟨List.sorted_insertionSort _ _, List.perm_insertionSort _ _,
   fun t => filter_insertionSort_createdAt t _⟩

/-! ### The per-platform counting object of `getContentStats` -/

theorem sumVals_cons (p : String × JsVal) (t : List (String × JsVal)) :
    sumVals (p :: t) = p.2.toCount + sumVals t := by
  simp [sumVals]

theorem objGetOwn_eq_none_iff (l : List (String × JsVal)) (k : String) :
    objGetOwn l k = none ↔ k ∉ l.map Prod.fst := by
  induction l with
  | nil => simp [objGetOwn]
  | cons hd t ih =>
    obtain ⟨k', v'⟩ := hd
    by_cases h : k' = k
    · subst h
      simp [objGetOwn]
    · simp [objGetOwn, h, ih, Ne.symm h]

theorem objGetOwn_mem (l : List (String × JsVal)) (k : String) (v : JsVal)
    (h : objGetOwn l k = some v) : (k, v) ∈ l := by
  induction l with
  | nil => simp [objGetOwn] at h
  | cons hd t ih =>
    obtain ⟨k', v'⟩ := hd
    by_cases hk : k' = k
    · subst hk
      have h' : v' = v := by simpa [objGetOwn] using h
      subst h'
      exact List.mem_cons_self _ _
    · simp only [objGetOwn, if_neg hk] at h
      exact List.mem_cons_of_mem _ (ih h)

theorem objSetOwn_of_get_none (l : List (String × JsVal)) (k : String)
    (w : JsVal) (h : objGetOwn l k = none) :
    objSetOwn l k w = l ++ [(k, w)] := by
  induction l with
  | nil => rfl
  | cons hd t ih =>
    obtain ⟨k', v'⟩ := hd
    by_cases hk : k' = k
    · simp [objGetOwn, hk] at h
    · simp only [objGetOwn, if_neg hk] at h
      simp [objSetOwn, hk, ih h]

theorem objSetOwn_keys_of_get_some (l : List (String × JsVal)) (k : String)
    (v w : JsVal) (h : objGetOwn l k = some v) :
    (objSetOwn l k w).map Prod.fst = l.map Prod.fst := by
  induction l with
  | nil => simp [objGetOwn] at h
  | cons hd t ih =>
    obtain ⟨k', v'⟩ := hd
    by_cases hk : k' = k
    · simp [objSetOwn, hk]
    · simp only [objGetOwn, if_neg hk] at h
      simp [objSetOwn, hk, ih h]

theorem sumVals_objSetOwn_of_get_some (l : List (String × JsVal)) (k : String)
    (v w : JsVal) (h : objGetOwn l k = some v) :
    sumVals (objSetOwn l k w) + v.toCount = sumVals l + w.toCount := by
  induction l with
  | nil => simp [objGetOwn] at h
  | cons hd t ih =>
    obtain ⟨k', v'⟩ := hd
    by_cases hk : k' = k
    · simp only [objGetOwn, if_pos hk, Option.some.injEq] at h
      subst h
      simp only [objSetOwn, if_pos hk, sumVals_cons]
      omega
    · simp only [objGetOwn, if_neg hk] at h
      simp only [objSetOwn, if_neg hk, sumVals_cons]
      have := ih h
      omega

theorem mem_objSetOwn (l : List (String × JsVal)) (k : String) (w : JsVal)
    (p : String × JsVal) (hp : p ∈ objSetOwn l k w) : p.2 = w ∨ p ∈ l := by
  induction l with
  | nil =>
    simp only [objSetOwn, List.mem_singleton] at hp
    subst hp
    exact Or.inl rfl
  | cons hd t ih =>
    obtain ⟨k', v'⟩ := hd
    by_cases hk : k' = k
    · simp only [objSetOwn, if_pos hk, List.mem_cons] at hp
      rcases hp with rfl | hp
      · exact Or.inl rfl
      · exact Or.inr (List.mem_cons_of_mem _ hp)
    · simp only [objSetOwn, if_neg hk, List.mem_cons] at hp
      rcases hp with rfl | hp
      · exact Or.inr (List.mem_cons_self _ _)
      · rcases ih hp with h1 | h1
        · exact Or.inl h1
        · exact Or.inr (List.mem_cons_of_mem _ h1)

/-- Well-formed counting objects: every stored value is a positive
number.  This is the state invariant of `platformCounts` as long as only
prototype-safe platform keys have been folded in. -/
def goodCounts (l : List (String × JsVal)) : Prop :=
  ∀ p ∈ l, ∃ n : Nat, p.2 = JsVal.num (n + 1)

theorem goodCounts_objSetOwn (l : List (String × JsVal)) (k : String)
    (w : JsVal) (h : goodCounts l) (hw : ∃ n : Nat, w = JsVal.num (n + 1)) :
    goodCounts (objSetOwn l k w) := by
  intro p hp
  rcases mem_objSetOwn l k w p hp with h1 | h1
  · rcases hw with ⟨n, rfl⟩
    exact ⟨n, h1⟩
  · exact h p h1

/-- One prototype-safe `bump` step on a well-formed counting object:
well-formedness is preserved, the numeric sum grows by one, and the key
sequence gains the key at the end unless it is already present. -/
theorem bump_safe_spec (l : List (String × JsVal)) (k : String)
    (hsafe : k ∉ objectProtoKeys) (hgood : goodCounts l) :
    goodCounts (bump l k)
  ∧ sumVals (bump l k) = sumVals l + 1
  ∧ (bump l k).map Prod.fst
      = (if k ∈ l.map Prod.fst then l.map Prod.fst
         else l.map Prod.fst ++ [k]) := by
  have hproto : ¬ k = "__proto__" := by
    intro hk
    exact hsafe (hk ▸ List.mem_cons_self _ _)
  have hfun : ¬ k ∈ protoFunKeys := fun hk =>
    hsafe (List.mem_cons_of_mem _ hk)
  cases hget : objGetOwn l k with
  | none =>
    have hkeys : ¬ k ∈ l.map Prod.fst := (objGetOwn_eq_none_iff l k).mp hget
    have hb : bump l k = l ++ [(k, JsVal.num 1)] := by
      unfold bump
      rw [hget]
      simp [hproto, hfun, objSetOwn_of_get_none l k _ hget]
    rw [hb]
    refine ⟨?_, ?_, ?_⟩
    · intro p hp
      rcases List.mem_append.mp hp with h1 | h1
      · exact hgood p h1
      · simp only [List.mem_singleton] at h1
        subst h1
        exact ⟨0, rfl⟩
    · simp [sumVals, JsVal.toCount]
    · simp [hkeys]
  | some v =>
    obtain ⟨n, hv⟩ := hgood (k, v) (objGetOwn_mem l k v hget)
    simp only at hv
    subst hv
    have hkeys : k ∈ l.map Prod.fst := by
      by_contra hk
      rw [(objGetOwn_eq_none_iff l k).mpr hk] at hget
      exact Option.noConfusion hget
    have hb : bump l k = objSetOwn l k (JsVal.num (n + 2)) := by
      unfold bump
      rw [hget]
      simp [JsVal.truthy, jsAdd1]
    rw [hb]
    refine ⟨?_, ?_, ?_⟩
    · exact goodCounts_objSetOwn l k _ hgood ⟨n + 1, rfl⟩
    · have hs := sumVals_objSetOwn_of_get_some l k _ (JsVal.num (n + 2)) hget
      simp only [JsVal.toCount] at hs
      omega
    · rw [objSetOwn_keys_of_get_some l k _ _ hget, if_pos hkeys]

/-- Folding prototype-safe platform keys into a well-formed counting
object preserves well-formedness, adds the record count to the numeric
sum, keeps the keys duplicate-free, and produces exactly the old keys plus
the folded platforms. -/
theorem foldl_bump_spec (l : List Content) (acc : List (String × JsVal))
    (hsafe : ∀ c ∈ l, c.platform ∉ objectProtoKeys) (hgood : goodCounts acc)
    (hnodup : (acc.map Prod.fst).Nodup) :
    goodCounts (l.foldl (fun a c => bump a c.platform) acc)
  ∧ sumVals (l.foldl (fun a c => bump a c.platform) acc)
      = sumVals acc + l.length
  ∧ ((l.foldl (fun a c => bump a c.platform) acc).map Prod.fst).Nodup
  ∧ ∀ x, x ∈ (l.foldl (fun a c => bump a c.platform) acc).map Prod.fst
        ↔ x ∈ acc.map Prod.fst ∨ x ∈ l.map (fun c => c.platform) := by
  induction l generalizing acc with
  | nil => exact ⟨hgood, by simp, hnodup, by simp⟩
  | cons c l ih =>
    have hc : c.platform ∉ objectProtoKeys := hsafe c (List.mem_cons_self _ _)
    have hstep := bump_safe_spec acc c.platform hc hgood
    have hnodup' : ((bump acc c.platform).map Prod.fst).Nodup := by
      rw [hstep.2.2]
      by_cases hk : c.platform ∈ acc.map Prod.fst
      · simpa [hk] using hnodup
      · simp [hk, List.nodup_append, hnodup]
    have hmem' : ∀ x, x ∈ (bump acc c.platform).map Prod.fst
        ↔ x ∈ acc.map Prod.fst ∨ x = c.platform := by
      intro x
      rw [hstep.2.2]
      by_cases hk : c.platform ∈ acc.map Prod.fst
      · rw [if_pos hk]
        constructor
        · exact Or.inl
        · rintro (h1 | rfl)
          · exact h1
          · exact hk
      · rw [if_neg hk]
        simp [List.mem_append]
    have htail := ih (bump acc c.platform)
      (fun d hd => hsafe d (List.mem_cons_of_mem _ hd)) hstep.1 hnodup'
    refine ⟨htail.1, ?_, htail.2.2.1, ?_⟩
    · rw [List.foldl_cons, htail.2.1, hstep.2.1, List.length_cons]
      omega
    · intro x
      rw [List.foldl_cons, htail.2.2.2 x, hmem' x]
      simp only [List.map_cons, List.mem_cons]
      tauto

/-- C4 (amended): for every owner none of whose records carries a platform
value equal to an own property key of `Object.prototype`, the stats report
`totalContent` equal to the length of the owner's listing, `aiGenerated`
equal to `totalContent`, `platforms` equal to the number of distinct
platform values among the owner's records, and a `byPlatform` object whose
per-platform counts sum to `totalContent`. -/
theorem content_stats_consistent_safe_platforms (s : MemStorage) (userId : Nat)
    (hsafe : ∀ c ∈ getContentByUserId s userId, c.platform ∉ objectProtoKeys) :
    (getContentStats s userId).totalContent = (getContentByUserId s userId).length
  ∧ (getContentStats s userId).aiGenerated = (getContentStats s userId).totalContent
  ∧ (getContentStats s userId).platforms
      = ((getContentByUserId s userId).map (fun c => c.platform)).dedup.length
  ∧ sumVals (getContentStats s userId).byPlatform
      = (getContentStats s userId).totalContent := by
  have h := foldl_bump_spec (getContentByUserId s userId) [] hsafe
    (by intro p hp; simp at hp) (by simp)
  refine ⟨rfl, rfl, ?_, ?_⟩
  · show ((getContentByUserId s userId).foldl (fun a c => bump a c.platform) []).length = _
    rw [← List.length_map _ Prod.fst]
    apply List.Perm.length_eq
    rw [List.perm_ext_iff_of_nodup h.2.2.1 (List.nodup_dedup _)]
    intro x
    rw [h.2.2.2 x, List.mem_dedup]
    simp
  · show sumVals ((getContentByUserId s userId).foldl (fun a c => bump a c.platform) [])
        = (getContentByUserId s userId).length
    rw [h.2.1]
    simp [sumVals]

theorem content_stats_consistent_safe_platforms_witness :
    (getContentStats demoStore1 1).totalContent = (getContentByUserId demoStore1 1).length
  ∧ (getContentStats demoStore1 1).aiGenerated = (getContentStats demoStore1 1).totalContent
  ∧ (getContentStats demoStore1 1).platforms
      = ((getContentByUserId demoStore1 1).map (fun c => c.platform)).dedup.length
  ∧ sumVals (getContentStats demoStore1 1).byPlatform
      = (getContentStats demoStore1 1).totalContent :=
  content_stats_consistent_safe_platforms demoStore1 1 (by decide)

/-- An insert payload whose platform is the string `"__proto__"` — a
free-form tag that passes `insertContentSchema` and the generation route's
truthiness guard. -/
def protoInsert : InsertContent := { demoInsert with platform := "__proto__" }

/-- A store holding exactly one record with platform `"__proto__"`. -/
def protoStore : MemStorage := (createContent MemStorage.init protoInsert 100).2

/-- C4 counterexample: at a reachable store whose single record has
platform `"__proto__"`, the inherited `__proto__` setter swallows the
assignment, so the stats report `platforms = 0` and `byPlatform = \x7b\x7d`
although `totalContent = 1` and the owner has one distinct platform value —
`platforms` does not equal the distinct-platform count and the `byPlatform`
sum does not equal `totalContent`. -/
theorem content_stats_proto_counterexample :
    (getContentStats protoStore 1).totalContent = 1
  ∧ (getContentStats protoStore 1).platforms = 0
  ∧ (getContentStats protoStore 1).byPlatform = []
  ∧ ¬ ((getContentStats protoStore 1).platforms
        = ((getContentByUserId protoStore 1).map (fun c => c.platform)).dedup.length)
  ∧ ¬ (sumVals (getContentStats protoStore 1).byPlatform
        = (getContentStats protoStore 1).totalContent) := by
  refine ⟨by decide, by decide, by decide, by decide, by decide⟩

end ContentCraft
